import Mathlib

/-!
A Lean model of the style-spec function core of this repository:
`src/style-spec/function/evaluation_context.js` and
`src/style-spec/function/index.js`.

Modelling conventions:
* JavaScript numbers are modelled as exact rationals (`ℚ`).  All comparisons
  and the arithmetic reached by the theorems below are exact in both worlds.
* Plain JSON-like data (feature properties, expression JSON, array items) is
  the inductive type `Json`; tagged runtime values are the inductive `Value`.
* Exceptions are modelled with `Except`: a thrown `RuntimeError` is an
  `Except.error`.  JavaScript `TypeError`s from reading fields of the wrong
  shape are modelled as `Except.error` as well (they propagate identically;
  only the message differs, and no theorem below depends on those messages).
* Zero-argument thunks are functions `Unit → Except RuntimeError Value`.
* The `while` loop of `findStopLessThanOrEqualTo` is modelled with an explicit
  fuel parameter that bounds the number of executed loop iterations; a `none`
  result means the loop did not exit within the given fuel.  The theorem
  `findStopLoop_total` shows that `stops.length + 1` iterations always
  suffice, so the entry point's fallback default is dead code.
-/

/-- Plain JSON-like data: the "wire" values the context wraps and unwraps. -/
inductive Json where
  | null : Json
  | bool (b : Bool) : Json
  | num (q : ℚ) : Json
  | str (s : String) : Json
  | arr (items : List Json) : Json
  | obj (entries : List (String × Json)) : Json

/-- Tagged runtime values.  `color` carries the channel tuple stored in the
JS wrapper's `value` field, `arrayV` the `arrayType` descriptor string and the
`items` field, `objectV` the plain mapping stored in the wrapper's `value`
field.  In the code shown, array items and object entries are plain JSON
data. -/
inductive Value where
  | null : Value
  | bool (b : Bool) : Value
  | num (q : ℚ) : Value
  | str (s : String) : Value
  | color (channels : List ℚ) : Value
  | arrayV (arrayType : String) (items : List Json) : Value
  | objectV (entries : List (String × Json)) : Value

/-- The evaluation-time error class.  Its `name` field is the constant
string `ExpressionEvaluationError`, so only the message is carried. -/
structure RuntimeError where
  message : String
deriving DecidableEq

/-- Serialized form of a runtime error (the class's `toJSON`). -/
def RuntimeError.toJSON (e : RuntimeError) : String :=
  "ExpressionEvaluationError: " ++ e.message

/-- A zero-argument thunk as passed to `coalesce` and `evaluateCurve`. -/
abbrev EvalThunk := Unit → Except RuntimeError Value

/-- A single-quote character as a string (used inside error messages). -/
def apos : String := String.mk [Char.ofNat 39]

/-- The `ensure` helper: throws `RuntimeError(message)` on a falsy condition,
returns `true` otherwise. -/
def ensure (condition : Bool) (message : String) : Except RuntimeError Bool :=
  if condition then Except.ok true else Except.error (RuntimeError.mk message)

/-- JavaScript truthiness of a runtime value (`NaN` is not representable in
the exact-rational model; no theorem depends on it). -/
def jsTruthyValue : Value → Bool
  | Value.null => false
  | Value.bool b => b
  | Value.num q => decide (q ≠ 0)
  | Value.str s => decide (s ≠ "")
  | _ => true

/-- JavaScript truthiness of plain JSON data. -/
def jsTruthy : Json → Bool
  | Json.null => false
  | Json.bool b => b
  | Json.num q => decide (q ≠ 0)
  | Json.str s => decide (s ≠ "")
  | _ => true

/-- The `typeOf` context operation: `Null` for null, the `arrayType`
descriptor for Array wrappers, the wrapper tag for Color/Object, and the
titlecased primitive kind otherwise. -/
def typeOf : Value → String
  | Value.null => "Null"
  | Value.bool _ => "Boolean"
  | Value.num _ => "Number"
  | Value.str _ => "String"
  | Value.color _ => "Color"
  | Value.arrayV arrayType _ => arrayType
  | Value.objectV _ => "Object"

/-- Whether the first character sequence occurs at the start of the second. -/
def beginsWith : List Char → List Char → Bool
  | [], _ => true
  | _ :: _, [] => false
  | p :: ps, c :: cs => p == c && beginsWith ps cs

/-- Whether the first character sequence occurs anywhere in the second. -/
def containsSeq (needle : List Char) : List Char → Bool
  | [] => beginsWith needle []
  | c :: cs => beginsWith needle (c :: cs) || containsSeq needle cs

/-- The test of the unanchored JS regex `/Array(<(string|number|boolean)>)?/`
against a type string: since the suffix group is optional, `test` succeeds
exactly when the string contains `Array` as a substring. -/
def arrayTypeRegexTest (type : String) : Bool :=
  containsSeq "Array".data type.data

/-- The `name || 'value'`-style defaulting used in error messages (an empty
string is falsy in JS and also falls back to the default). -/
def nameOr (name : Option String) (d : String) : String :=
  match name with
  | some n => if n = "" then d else n
  | none => d

/-- The type-assertion operation `as`. -/
def as (value : Value) (expectedType : String) (name : Option String) :
    Except RuntimeError Value :=
  let type := typeOf value
  if expectedType = "Array" then
    match ensure (arrayTypeRegexTest type)
        ("Expected " ++ nameOr name "value" ++ " to be an Array, but found " ++
          type ++ " instead.") with
    | Except.error e => Except.error e
    | Except.ok _ => Except.ok value
  else
    match ensure (decide (type = expectedType))
        ("Expected " ++ nameOr name "value" ++ " to be of type " ++ expectedType ++
          ", but found " ++ type ++ " instead.") with
    | Except.error e => Except.error e
    | Except.ok _ => Except.ok value

/-- Whether the wrapped mapping has the key (the `hasOwnProperty` check);
only reached after `as obj "Object"` succeeded, so the catch-all is dead. -/
def hasKey : Value → String → Bool
  | Value.objectV entries, key => (List.lookup key entries).isSome
  | _, _ => false

/-- The `${name ? ` ${name}` : ''}` suffix of the null-object message. -/
def nameSuffix (name : Option String) : String :=
  match name with
  | some n => if n = "" then "" else " " ++ n
  | none => ""

/-- The `has` context operation. -/
def has (obj : Value) (key : String) (name : Option String) :
    Except RuntimeError Bool :=
  match ensure (jsTruthyValue obj)
      ("Cannot get property " ++ key ++ " from null object" ++ nameSuffix name ++ ".") with
  | Except.error e => Except.error e
  | Except.ok _ =>
    match as obj "Object" name with
    | Except.error e => Except.error e
    | Except.ok o => Except.ok (hasKey o key)

/-- `Object.keys` applied to the tagged wrapper object itself: the wrapper
literal `{type: ..., value: ...}` has exactly the own keys `type` and `value`
(in insertion order).  These are NOT the keys of the wrapped mapping.  `get`
only builds this message after `has` succeeded, so the value is an Object
wrapper there and the catch-all is dead. -/
def objectKeys : Value → List String
  | Value.objectV _ => ["type", "value"]
  | _ => []

/-- The fallback part of `get`'s not-found message. -/
def keysMsg (obj : Value) : String :=
  "object with keys: [" ++ String.intercalate ", " (objectKeys obj) ++ "]"

/-- `obj.value[key]`: the raw entry of the wrapped mapping (a missing key
reads as `undefined`, which the success path of `get` never sees because
`ensure` already checked membership; `Json.null` stands in for it). -/
def entryOf : Value → String → Json
  | Value.objectV entries, key => (List.lookup key entries).getD Json.null
  | _, _ => Json.null

/-- Modelled from the spec: `ArrayLiteral.inferArrayType` lives in
`src/style-spec/function/expression.js`, which is not among the provided
sources.  Per the spec (section 4.1), wrapping with no explicit element type
infers the narrowest common element type by inspecting the item tags and
falls back to the general array type when the items disagree. -/
def elemTag : Json → Option String
  | Json.num _ => some "number"
  | Json.str _ => some "string"
  | Json.bool _ => some "boolean"
  | _ => none

/-- Modelled from the spec: the element-type inference used by `array` when
no explicit type is given (see `elemTag`). -/
def inferArrayType (items : List Json) : String :=
  match items.map elemTag with
  | [] => "Array"
  | t :: ts =>
    match t with
    | some tag => if ts.all (fun u => u == some tag) then "Array<" ++ tag ++ ">" else "Array"
    | none => "Array"

/-- The `array` wrapping operation: a falsy `arrayType` argument (absent or
the empty string) triggers element-type inference. -/
def array (arrayType : Option String) (items : List Json) : Value :=
  match arrayType with
  | none => Value.arrayV (inferArrayType items) items
  | some t => if t = "" then Value.arrayV (inferArrayType items) items else Value.arrayV t items

/-- The `object` wrapping operation. -/
def object (value : List (String × Json)) : Value :=
  Value.objectV value

/-- The `get` context operation: asserts membership via `has`, then returns
the raw entry, wrapping nested plain arrays and objects. -/
def get (obj : Value) (key : String) (name : Option String) :
    Except RuntimeError Value :=
  match has obj key name with
  | Except.error e => Except.error e
  | Except.ok h =>
    match ensure h
        ("Property " ++ apos ++ key ++ apos ++ " not found in " ++
          (match name with
            | some n => if n = "" then keysMsg obj else n
            | none => keysMsg obj)) with
    | Except.error e => Except.error e
    | Except.ok _ =>
      match entryOf obj key with
      | Json.arr xs => Except.ok (array none xs)
      | Json.obj m => Except.ok (object m)
      | Json.null => Except.ok Value.null
      | Json.bool b => Except.ok (Value.bool b)
      | Json.num n => Except.ok (Value.num n)
      | Json.str s => Except.ok (Value.str s)

/-- The JS strict inequality `result !== null` of `coalesce` (an `ok`
result that is the Null value continues the loop). -/
def isNull : Value → Bool
  | Value.null => true
  | _ => false

/-- The `coalesce` control construct: evaluates the thunks in order, the
first non-Null success is returned; a failure is swallowed unless no thunks
remain after it, in which case it propagates; no thunks at all yield Null. -/
def coalesce : List EvalThunk → Except RuntimeError Value
  | [] => Except.ok Value.null
  | t :: rest =>
    match t () with
    | Except.ok result => if isNull result then coalesce rest else Except.ok result
    | Except.error e => if rest.isEmpty then Except.error e else coalesce rest

/-- The `rgba` builder: r, g, b are divided by 255, the alpha channel is
taken as given and defaults to 1 when absent. -/
def rgba (r g b : ℚ) (a : Option ℚ) : Value :=
  Value.color [r / 255, g / 255, b / 255, a.getD 1]

/-- The `unwrap` operation.  Color and Object unwrap to their `value`
field, Array to its `items`, primitives pass through (injected into the
JSON codomain).  The JS throw for unrecognized wrapper shapes cannot arise
in the closed `Value` type. -/
def unwrap : Value → Json
  | Value.null => Json.null
  | Value.bool b => Json.bool b
  | Value.num q => Json.num q
  | Value.str s => Json.str s
  | Value.color channels => Json.arr (channels.map Json.num)
  | Value.arrayV _ items => Json.arr items
  | Value.objectV entries => Json.obj entries

/-- The interpolation descriptor of a curve: the JS object's `name` field
plus the `base` field (which the code reads only when the name is
`exponential`). -/
structure InterpolationType where
  name : String
  base : ℚ

/-- Modelled from the spec: `Math.pow` as used by the exponential branch of
the interpolation factor.  The spec's formula uses real powers; the
exact-rational model evaluates the power at the floor of the exponent (it
agrees with the JS value on integer exponents, and no theorem below depends
on the exponential branch's numeric value). -/
def powQ (b x : ℚ) : ℚ := b ^ (Int.floor x)

/-- Modelled from the spec: the scalar linear blend `(lower, upper, t)` of
the external `util/interpolate` module. -/
def lerpQ (lower upper t : ℚ) : ℚ := lower * (1 - t) + upper * t

/-- Modelled from the spec: `interpolationFactor(input, base, lowerValue,
upperValue)` from `src/style-spec/function/interpolation_factor.js` (not
among the provided sources).  Linear progress when `base = 1`, exponential
ease otherwise; a degenerate bracket divides by zero, which the spec calls a
precondition violation (rational division by zero yields 0 here). -/
def interpolationFactor (input base lowerValue upperValue : ℚ) : ℚ :=
  let difference := upperValue - lowerValue
  let progress := input - lowerValue
  if base = 1 then progress / difference
  else (powQ base progress - 1) / (powQ base difference - 1)

/-- Modelled from the spec: the item-wise blend `interpolate.array`; it maps
over the first sequence, pairing each item with the same index of the second
(the spec requires equal lengths; a missing right item is JS `undefined`,
whose blend is NaN — represented by `Json.null`, unreached under the equal
length hypothesis). -/
def jsonLerp (a b : Json) (t : ℚ) : Json :=
  match a, b with
  | Json.num x, Json.num y => Json.num (lerpQ x y t)
  | _, _ => Json.null

/-- Modelled from the spec: component-wise blend of item sequences (see
`jsonLerp`). -/
def interpolateArray : List Json → List Json → ℚ → List Json
  | [], _, _ => []
  | a :: as, [], t => jsonLerp a Json.null t :: interpolateArray as [] t
  | a :: as, b :: bs, t => jsonLerp a b t :: interpolateArray as bs t

/-- Modelled from the spec: component-wise blend of color channel tuples
(always of equal length 4 in the code shown). -/
def interpolateColor (lower upper : List ℚ) (t : ℚ) : List ℚ :=
  List.zipWith (fun a b => lerpQ a b t) lower upper

/-- Modelled from the spec: the scalar interpolator dispatch
`interpolate[resultType](lower, upper, t)` for non-color, non-array result
types; `number` is the scalar numeric type of the type map, any other
lookup is `undefined` in JS and throws when called. -/
def interpolateScalar (resultType : String) (lower upper : Value) (t : ℚ) :
    Except RuntimeError Value :=
  if resultType = "number" then
    match lower, upper with
    | Value.num a, Value.num b => Except.ok (Value.num (lerpQ a b t))
    | _, _ => Except.error (RuntimeError.mk "TypeError: cannot interpolate non-numeric values")
  else Except.error (RuntimeError.mk ("TypeError: interpolate." ++ resultType ++ " is not a function"))

/-- Total ℕ-indexed access to the stop inputs (used in specifications). -/
def stopVal (stops : List ℚ) (j : ℕ) : ℚ := (stops[j]?).getD 0

/-- ℤ-indexed array access as JS sees it: out-of-range reads yield
`undefined` (`none`). -/
def sAt (stops : List ℚ) (i : ℤ) : Option ℚ :=
  if 0 ≤ i ∧ i < (stops.length : ℤ) then some (stopVal stops i.toNat) else none

/-- JS strict equality between a number and a possibly-undefined value. -/
def jsEqO : Option ℚ → Option ℚ → Bool
  | some a, some b => decide (a = b)
  | _, _ => false

/-- JS `<` between possibly-undefined values: any comparison with
`undefined` is false (NaN semantics). -/
def jsLtO : Option ℚ → Option ℚ → Bool
  | some a, some b => decide (a < b)
  | _, _ => false

/-- JS `input <= x` where `x` may be undefined. -/
def jsLeB (input : ℚ) : Option ℚ → Bool
  | some b => decide (input ≤ b)
  | none => false

/-- JS `input >= x` where `x` may be undefined. -/
def jsGeB (input : ℚ) : Option ℚ → Bool
  | some b => decide (b ≤ input)
  | none => false

/-- The body of `findStopLessThanOrEqualTo`'s `while` loop, with explicit
fuel bounding the number of iterations (see the module comment).  The final
`else` is reached only when `stops[mid]` is `undefined` (an out-of-range
probe), where the JS loop would spin forever with unchanged state: the fuel
then runs out and the result is `none`. -/
def findStopLoop (stops : List ℚ) (input : ℚ) :
    ℕ → ℤ → ℤ → ℤ → Option ℤ
  | 0, _, _, _ => none
  | fuel + 1, lowerIndex, upperIndex, currentIndex =>
    if lowerIndex ≤ upperIndex then
      let mid := Int.fdiv (lowerIndex + upperIndex) 2
      let currentValue := sAt stops mid
      let upperValue := sAt stops (mid + 1)
      if jsEqO (some input) currentValue ||
          (jsLtO currentValue (some input) && jsLtO (some input) upperValue) then
        some mid
      else if jsLtO currentValue (some input) then
        findStopLoop stops input fuel (mid + 1) upperIndex mid
      else if jsLtO (some input) currentValue then
        findStopLoop stops input fuel lowerIndex (mid - 1) mid
      else
        findStopLoop stops input fuel lowerIndex upperIndex mid
    else
      some (max (currentIndex - 1) 0)

/-- Returns the index of the last stop less than or equal to the input, or 0
if it does not exist.  The fuel `stops.length + 1` is shown sufficient by
`findStopLoop_total`, so the `getD 0` fallback is dead code. -/
def findStopLessThanOrEqualTo (stops : List ℚ) (input : ℚ) : ℤ :=
  (findStopLoop stops input (stops.length + 1) 0 ((stops.length : ℤ) - 1) 0).getD 0

/-- Calling a thunk of `stopOutputs` at a ℕ index; an out-of-range index is
`undefined` in JS and calling it throws a TypeError (modelled as an error
thunk; the theorems below always supply an in-range index). -/
def callStop (stopOutputs : List EvalThunk) (i : ℕ) : Except RuntimeError Value :=
  (stopOutputs.getD i (fun _ => Except.error (RuntimeError.mk "TypeError: stop output is not a function"))) ()

/-- The `.type` field of a runtime value: the tagged wrappers carry one;
primitives read as `undefined` (`none`). -/
def typeField : Value → Option String
  | Value.color _ => some "Color"
  | Value.arrayV _ _ => some "Array"
  | Value.objectV _ => some "Object"
  | _ => none

/-- The `.items` field read by the array branch of `evaluateCurve`; when the
output is not an Array value the field is `undefined` and `interpolate.array`
throws a TypeError (modelled as an error). -/
def itemsOf : Value → Except RuntimeError (List Json)
  | Value.arrayV _ items => Except.ok items
  | _ => Except.error (RuntimeError.mk "TypeError: cannot read items")

/-- The `.value` field read by the color branch of `evaluateCurve`: the
channel tuple of a Color value.  Object wrappers also expose a `.value`
field, but `interpolate.color` then throws a TypeError when mapping over the
mapping, so both non-Color cases are conflated into an error result. -/
def channelsOf : Value → Except RuntimeError (List ℚ)
  | Value.color channels => Except.ok channels
  | _ => Except.error (RuntimeError.mk "TypeError: cannot read channels")

/-- The curve evaluation algorithm of the Evaluation Context. -/
def evaluateCurve (input : Value) (stopInputs : List ℚ)
    (stopOutputs : List EvalThunk) (interpolation : InterpolationType)
    (resultType : String) : Except RuntimeError Value :=
  match as input "Number" (some "curve input") with
  | Except.error e => Except.error e
  | Except.ok checked =>
    match checked with
    | Value.num inp =>
      let stopCount := stopInputs.length
      if stopCount = 1 then callStop stopOutputs 0
      else if jsLeB inp stopInputs[0]? then callStop stopOutputs 0
      else if jsGeB inp stopInputs[stopCount - 1]? then callStop stopOutputs (stopCount - 1)
      else
        let index := (findStopLessThanOrEqualTo stopInputs inp).toNat
        if interpolation.name = "step" then callStop stopOutputs index
        else
          let base := if interpolation.name = "exponential" then interpolation.base else 1
          let t := interpolationFactor inp base (stopVal stopInputs index) (stopVal stopInputs (index + 1))
          match callStop stopOutputs index with
          | Except.error e => Except.error e
          | Except.ok outputLower =>
            match callStop stopOutputs (index + 1) with
            | Except.error e => Except.error e
            | Except.ok outputUpper =>
              if resultType = "color" then
                match channelsOf outputLower with
                | Except.error e => Except.error e
                | Except.ok cl =>
                  match channelsOf outputUpper with
                  | Except.error e => Except.error e
                  | Except.ok cu => Except.ok (Value.color (interpolateColor cl cu t))
              else if resultType = "array" then
                match itemsOf outputLower with
                | Except.error e => Except.error e
                | Except.ok il =>
                  match itemsOf outputUpper with
                  | Except.error e => Except.error e
                  | Except.ok iu => Except.ok (array (typeField outputLower) (interpolateArray il iu t))
              else interpolateScalar resultType outputLower outputUpper t
    | _ => Except.error (RuntimeError.mk "curve input is not a number")

/-- The greatest index whose stop input is less than or equal to the given
input (the specification the binary search realizes on sorted stops). -/
def IsGreatestLE (stops : List ℚ) (input : ℚ) (i : ℕ) : Prop :=
  i < stops.length ∧ stopVal stops i ≤ input ∧
    ∀ j, j < stops.length → stopVal stops j ≤ input → j ≤ i

/-- One error reported by the external expression compiler. -/
structure CompileError where
  key : String
  error : String

/-- Modelled from the spec: the AST node shape of compiled expressions
(produced by `src/style-spec/function/expression.js`, not among the provided
sources).  A node carries its operator `name`, its argument nodes, the
`value` of literal nodes, and the output of its `serialize()` method (design
note in the spec: the curve-node location heuristic reads `name`, `args`,
`args[i].value` and `serialize()[1]`). -/
inductive ASTNode where
  | mk (name : String) (args : List ASTNode) (value : Json) (serialized : List Json)

/-- Operator name of an AST node. -/
def ASTNode.name : ASTNode → String
  | ASTNode.mk n _ _ _ => n

/-- Argument nodes of an AST node. -/
def ASTNode.args : ASTNode → List ASTNode
  | ASTNode.mk _ a _ _ => a

/-- Literal value of an AST node. -/
def ASTNode.value : ASTNode → Json
  | ASTNode.mk _ _ v _ => v

/-- Serialized form of an AST node. -/
def ASTNode.serialized : ASTNode → List Json
  | ASTNode.mk _ _ _ s => s

/-- The expected output types handed to the external compiler (`ColorType`,
`StringType`, `NumberType`, `ValueType` and the `array` type constructor of
`src/style-spec/function/types.js`). -/
inductive ExpectedType where
  | color : ExpectedType
  | string : ExpectedType
  | number : ExpectedType
  | value : ExpectedType
  | array (elem : ExpectedType) (length : Option ℕ) : ExpectedType

/-- The successful output of the external expression compiler (black box per
the spec, section 6).  The JS calling convention passes `{zoom}` and
`{properties}` singleton objects; the model passes the zoom number and the
properties mapping directly. -/
structure CompiledExpression where
  fn : ℚ → Json → Except RuntimeError Value
  isFeatureConstant : Bool
  isZoomConstant : Bool
  expression : ASTNode

/-- The result union of the external expression compiler. -/
inductive CompileResult where
  | success (c : CompiledExpression) : CompileResult
  | error (errors : List CompileError) : CompileResult

/-- The style-property specification fields read by `createFunction`. -/
structure PropertySpec where
  type : Option String
  value : Option String
  length : Option ℕ
  default : Option Json

/-- The Compiled Function returned by `createFunction`: the callable
evaluator (a Null result maps to absent, i.e. `none`) plus the copied flags
and, when not zoom-constant, the extracted interpolation metadata. -/
structure CompiledFunction where
  f : ℚ → Json → Except RuntimeError (Option Value)
  isFeatureConstant : Bool
  isZoomConstant : Bool
  zoomStops : Option (List Json)
  interpolationT : Option (ℚ → Json → Except RuntimeError Value)

/-- Reading a field of a JSON object (a missing field is `undefined`;
`Json.null` stands in for it, and the two are never distinguished by the
reads `createFunction` performs: both are falsy and neither equals the
string `identity`). -/
def fieldOf : Json → String → Json
  | Json.obj entries, key => (List.lookup key entries).getD Json.null
  | _, _ => Json.null

/-- JS strict equality of a field against the string `identity`. -/
def isIdentityString : Json → Bool
  | Json.str s => decide (s = "identity")
  | _ => false

/-- Whether raw parameters are a function definition: a value of `typeof`
`object` carrying a truthy `expression` or `stops` field or
`type === 'identity'`.  JS `typeof null` is also `object`, and reading
`.expression` of `null` throws a TypeError. -/
def isFunctionDefinition (value : Json) : Except String Bool :=
  match value with
  | Json.obj _ =>
    Except.ok (jsTruthy (fieldOf value "expression") || jsTruthy (fieldOf value "stops") ||
      isIdentityString (fieldOf value "type"))
  | Json.arr _ => Except.ok false
  | Json.null => Except.error "TypeError: Cannot read properties of null"
  | _ => Except.ok false

/-- The type map of `getExpectedType`. -/
def typeMap (t : String) : Option ExpectedType :=
  if t = "color" then some ExpectedType.color
  else if t = "string" then some ExpectedType.string
  else if t = "number" then some ExpectedType.number
  else if t = "enum" then some ExpectedType.string
  else if t = "image" then some ExpectedType.string
  else none

/-- The expected output type derived from the property spec (an unknown
`type` yields `undefined`, i.e. `none`). -/
def getExpectedType (spec : PropertySpec) : Option ExpectedType :=
  if spec.type = some "array" then
    some (ExpectedType.array ((spec.value.bind typeMap).getD ExpectedType.value) spec.length)
  else spec.type.bind typeMap

/-- The normalization step of `createFunction`: literals go through the
external value converter, an `expression` field is used as is (wrapped in a
`coalesce` with the converted spec default when one is declared), and the
legacy stops/identity forms go through the external function converter.
The two converters are black boxes per the spec (section 6) and are passed
in as arguments. -/
def normalizeExpression (convertValue : Json → Option PropertySpec → Json)
    (convertFunction : Json → PropertySpec → Json)
    (parameters : Json) (propertySpec : PropertySpec) : Except String Json :=
  match isFunctionDefinition parameters with
  | Except.error e => Except.error e
  | Except.ok false => Except.ok (convertValue parameters (some propertySpec))
  | Except.ok true =>
    if jsTruthy (fieldOf parameters "expression") then
      match propertySpec.default with
      | some d =>
        Except.ok (Json.arr [Json.str "coalesce", fieldOf parameters "expression", convertValue d none])
      | none => Except.ok (fieldOf parameters "expression")
    else Except.ok (convertFunction parameters propertySpec)

/-- The elements at positions 0, 2, 4, ... of a list (used for the curve
arguments at positions 2, 4, 6, ... after dropping the first two). -/
def everyOther : List ASTNode → List ASTNode
  | [] => []
  | [x] => [x]
  | x :: _ :: rest => x :: everyOther rest

/-- The alternating `stop, index` arguments pushed onto the auxiliary
`interpolationT` curve expression. -/
def stopIndexPairs (zoomStops : List Json) : List Json :=
  (zoomStops.enum.map (fun p => [p.2, Json.num (p.1 : ℚ)])).flatten

/-- A placeholder AST node standing for JS `undefined` when
`curve.args[0]` is read from an empty argument list (never reached for the
well-formed expressions the external compiler produces). -/
def undefinedNode : ASTNode := ASTNode.mk "" [] Json.null []

/-- The front door `createFunction(parameters, propertySpec)`, with the
external collaborators (the two converters and the expression compiler)
passed in as arguments.  On compiler failure it throws a single error whose
message joins every `key: error` pair with a comma (the `console.log` calls
on that path have no observable effect in the model).  On success it wraps
the evaluator, copies the constancy flags, and extracts the zoom-stop and
interpolation metadata from the top-level curve node (unwrapping one level
when the outermost node is not itself a curve); the failed `assert` on the
auxiliary compilation is a thrown error. -/
def createFunction (convertValue : Json → Option PropertySpec → Json)
    (convertFunction : Json → PropertySpec → Json)
    (compileExpression : Json → Option ExpectedType → CompileResult)
    (parameters : Json) (propertySpec : PropertySpec) :
    Except String CompiledFunction :=
  match normalizeExpression convertValue convertFunction parameters propertySpec with
  | Except.error e => Except.error e
  | Except.ok expr =>
    match compileExpression expr (getExpectedType propertySpec) with
    | CompileResult.error errors =>
      Except.error (String.intercalate ", "
        (errors.map (fun err => err.key ++ ": " ++ err.error)))
    | CompileResult.success compiled =>
      let f : ℚ → Json → Except RuntimeError (Option Value) := fun zoom properties =>
        match compiled.fn zoom properties with
        | Except.error e => Except.error e
        | Except.ok val => Except.ok (if isNull val then none else some val)
      if compiled.isZoomConstant then
        Except.ok (CompiledFunction.mk f compiled.isFeatureConstant true none none)
      else
        let curve := if compiled.expression.name ≠ "curve"
          then compiled.expression.args.headD undefinedNode
          else compiled.expression
        let interpolation := curve.serialized.getD 1 Json.null
        let zoomStops := (everyOther (curve.args.drop 2)).map ASTNode.value
        if compiled.isFeatureConstant = false then
          let interpExpression :=
            Json.arr ([Json.str "curve", interpolation, Json.arr [Json.str "zoom"]] ++
              stopIndexPairs zoomStops)
          match compileExpression (Json.arr [Json.str "coalesce", interpExpression, Json.num 0])
              (some ExpectedType.number) with
          | CompileResult.success interpCompiled =>
            Except.ok (CompiledFunction.mk f false false (some zoomStops) (some interpCompiled.fn))
          | CompileResult.error _ =>
            Except.error "AssertionError: compiling the interpolationT expression failed"
        else
          Except.ok (CompiledFunction.mk f true false (some zoomStops) none)

theorem isNull_eq_false {v : Value} (h : v ≠ Value.null) : isNull v = false := by
  cases v <;> first | exact absurd rfl h | rfl

/-- C1: `coalesce` evaluates its zero-argument thunks in order; the first
thunk that succeeds with a non-Null value decides the result (independently
of any later thunks); a thunk that succeeds with Null is skipped; a thunk
that fails is skipped unless it is the last remaining one, in which case its
failure propagates; with no thunks the result is Null. -/
theorem coalesce_semantics (t : EvalThunk) (rest : List EvalThunk) (v : Value)
    (e : RuntimeError) :
    coalesce [] = Except.ok Value.null ∧
    (t () = Except.ok v → v ≠ Value.null → coalesce (t :: rest) = Except.ok v) ∧
    (t () = Except.ok Value.null → coalesce (t :: rest) = coalesce rest) ∧
    (t () = Except.error e → rest ≠ [] → coalesce (t :: rest) = coalesce rest) ∧
    (t () = Except.error e → coalesce [t] = Except.error e) := by
  refine ⟨rfl, ?_, ?_, ?_, ?_⟩
  · intro h hv
    simp [coalesce, h, isNull_eq_false hv]
  · intro h
    simp [coalesce, h, isNull]
  · intro h hrest
    cases rest with
    | nil => exact absurd rfl hrest
    | cons a l => simp [coalesce, h]
  · intro h
    simp [coalesce, h]

/-- Witness for C1 at the spec's three examples: no thunks, a failing thunk
followed by a successful one, and a single failing thunk. -/
theorem coalesce_semantics_witness :
    coalesce [] = Except.ok Value.null ∧
    coalesce [fun _ => Except.error (RuntimeError.mk "boom"),
      fun _ => Except.ok (Value.num 5)] = Except.ok (Value.num 5) ∧
    coalesce [fun _ => Except.error (RuntimeError.mk "boom")] =
      Except.error (RuntimeError.mk "boom") := by
  refine ⟨(coalesce_semantics (fun _ => Except.ok (Value.num 5)) [] (Value.num 5)
    (RuntimeError.mk "boom")).1, ?_, ?_⟩
  · have h1 := (coalesce_semantics (fun _ => Except.error (RuntimeError.mk "boom"))
      [fun _ => Except.ok (Value.num 5)] (Value.num 5) (RuntimeError.mk "boom")).2.2.2.1
      rfl (by simp)
    rw [h1]
    exact (coalesce_semantics (fun _ => Except.ok (Value.num 5)) [] (Value.num 5)
      (RuntimeError.mk "boom")).2.1 rfl (fun h => Value.noConfusion h)
  · exact (coalesce_semantics (fun _ => Except.error (RuntimeError.mk "boom")) [] (Value.num 5)
      (RuntimeError.mk "boom")).2.2.2.2 rfl

/-- C7: the `as` assertion with expected type Array accepts an Array value
of any element-type variant and returns it unchanged, and rejects a scalar
Number with a message naming the actual type. -/
theorem as_array_assertion (items : List Json) (arrayType : String)
    (name : Option String) (q : ℚ)
    (h : arrayType = "Array" ∨ arrayType = "Array<string>" ∨
      arrayType = "Array<number>" ∨ arrayType = "Array<boolean>") :
    as (Value.arrayV arrayType items) "Array" name =
      Except.ok (Value.arrayV arrayType items) ∧
    as (Value.num q) "Array" name = Except.error (RuntimeError.mk
      ("Expected " ++ nameOr name "value" ++ " to be an Array, but found Number instead.")) := by
  constructor
  · rcases h with h | h | h | h <;> subst h <;> rfl
  · have hreg : arrayTypeRegexTest "Number" = false := by decide
    simp [as, typeOf, ensure, hreg, String.append_assoc]

/-- Witness for C7 at a typed array value and the number 3. -/
theorem as_array_assertion_witness :
    as (Value.arrayV "Array<number>" []) "Array" none =
      Except.ok (Value.arrayV "Array<number>" []) ∧
    as (Value.num 3) "Array" none = Except.error (RuntimeError.mk
      "Expected value to be an Array, but found Number instead.") :=
  as_array_assertion [] "Array<number>" none 3 (Or.inr (Or.inr (Or.inl rfl)))

/-- C6 (at the failing input): `get` on the object with single entry key
`a`, queried for the missing key `b` with no name argument, fails with a
message that lists the keys of the tagged wrapper (`type`, `value`) rather
than the entry keys of the object — which differs from the message that
would list the available entry key `a`. -/
theorem get_failing_message :
    get (Value.objectV [("a", Json.num 1)]) "b" none = Except.error (RuntimeError.mk
      ("Property " ++ apos ++ "b" ++ apos ++ " not found in object with keys: [type, value]")) ∧
    ("Property " ++ apos ++ "b" ++ apos ++ " not found in object with keys: [type, value]") ≠
      ("Property " ++ apos ++ "b" ++ apos ++ " not found in object with keys: [a]") := by
  exact ⟨rfl, by decide⟩

/-- C8: unwrapping a wrapped object yields the original mapping, and
unwrapping an array wrapped without an explicit element type yields the
original item sequence. -/
theorem unwrap_wrap_roundtrip (m : List (String × Json)) (items : List Json) :
    unwrap (object m) = Json.obj m ∧ unwrap (array none items) = Json.arr items :=
  ⟨rfl, rfl⟩

/-- C10: `rgba` scales r, g, b by 255 and passes an explicit alpha through
unscaled, defaulting it to 1 when absent. -/
theorem rgba_channel_tuple (r g b a : ℚ) :
    rgba r g b (some a) = Value.color [r / 255, g / 255, b / 255, a] ∧
    rgba r g b none = Value.color [r / 255, g / 255, b / 255, 1] :=
  ⟨rfl, rfl⟩

/-- C5: whenever the external compiler reports failure on the normalized
expression, `createFunction` fails with the single message joining every
reported `key: error` pair, and no Compiled Function is produced. -/
theorem createFunction_error_aggregation
    (convertValue : Json → Option PropertySpec → Json)
    (convertFunction : Json → PropertySpec → Json)
    (compileExpression : Json → Option ExpectedType → CompileResult)
    (parameters : Json) (propertySpec : PropertySpec) (expr : Json)
    (errors : List CompileError)
    (hnorm : normalizeExpression convertValue convertFunction parameters propertySpec =
      Except.ok expr)
    (hcompile : compileExpression expr (getExpectedType propertySpec) =
      CompileResult.error errors) :
    createFunction convertValue convertFunction compileExpression parameters propertySpec =
      Except.error (String.intercalate ", "
        (errors.map (fun err => err.key ++ ": " ++ err.error))) := by
  unfold createFunction
  simp only [hnorm, hcompile]

/-- Witness for C5 with a compiler that reports two errors. -/
theorem createFunction_error_aggregation_witness :
    createFunction (fun v _ => v) (fun v _ => v)
      (fun _ _ => CompileResult.error [CompileError.mk "a" "b", CompileError.mk "c" "d"])
      (Json.num 5) (PropertySpec.mk none none none none) = Except.error "a: b, c: d" := by
  exact createFunction_error_aggregation (fun v _ => v) (fun v _ => v)
    (fun _ _ => CompileResult.error [CompileError.mk "a" "b", CompileError.mk "c" "d"])
    (Json.num 5) (PropertySpec.mk none none none none) (Json.num 5)
    [CompileError.mk "a" "b", CompileError.mk "c" "d"] rfl rfl

theorem fdiv_two_bounds {lo hi : ℤ} (h : lo ≤ hi) :
    lo ≤ Int.fdiv (lo + hi) 2 ∧ Int.fdiv (lo + hi) 2 ≤ hi := by
  rw [Int.fdiv_eq_ediv (lo + hi) (by norm_num)]
  omega

theorem sAt_eq_some {stops : List ℚ} {i : ℤ} (h0 : 0 ≤ i)
    (h1 : i < (stops.length : ℤ)) :
    sAt stops i = some (stopVal stops i.toNat) := by
  rw [sAt, if_pos ⟨h0, h1⟩]

theorem findStopLoop_total (stops : List ℚ) (input : ℚ) :
    ∀ fuel : ℕ, ∀ lowerIndex upperIndex currentIndex : ℤ,
      0 ≤ lowerIndex → upperIndex < (stops.length : ℤ) →
      0 ≤ currentIndex → currentIndex < (stops.length : ℤ) →
      (upperIndex - lowerIndex + 1).toNat + 1 ≤ fuel →
      ∃ i : ℤ, findStopLoop stops input fuel lowerIndex upperIndex currentIndex = some i ∧
        0 ≤ i ∧ i < (stops.length : ℤ) := by
  intro fuel
  induction fuel with
  | zero => intro lo hi cur _ _ _ _ hfuel; omega
  | succ fuel ih =>
    intro lo hi cur hlo hhi hc0 hcn hfuel
    by_cases hcond : lo ≤ hi
    · have hmid := fdiv_two_bounds hcond
      simp only [findStopLoop]
      rw [if_pos hcond]
      set mid := Int.fdiv (lo + hi) 2 with hmiddef
      have h0m : 0 ≤ mid := le_trans hlo hmid.1
      have hmn : mid < (stops.length : ℤ) := lt_of_le_of_lt hmid.2 hhi
      by_cases h1 : (jsEqO (some input) (sAt stops mid) ||
          (jsLtO (sAt stops mid) (some input) &&
            jsLtO (some input) (sAt stops (mid + 1)))) = true
      · rw [if_pos h1]
        exact ⟨mid, rfl, h0m, hmn⟩
      · rw [if_neg h1]
        by_cases h2 : jsLtO (sAt stops mid) (some input) = true
        · rw [if_pos h2]
          exact ih (mid + 1) hi mid (by omega) hhi h0m hmn (by omega)
        · rw [if_neg h2]
          by_cases h3 : jsLtO (some input) (sAt stops mid) = true
          · rw [if_pos h3]
            exact ih lo (mid - 1) mid hlo (by omega) h0m hmn (by omega)
          · rw [if_neg h3]
            exfalso
            rw [sAt_eq_some h0m hmn] at h1 h2 h3
            simp only [jsEqO, jsLtO, Bool.or_eq_true, Bool.and_eq_true,
              decide_eq_true_eq] at h1 h2 h3
            rcases lt_trichotomy (stopVal stops mid.toNat) input with hlt | heq | hgt
            · exact h2 hlt
            · exact h1 (Or.inl heq.symm)
            · exact h3 hgt
    · simp only [findStopLoop]
      rw [if_neg hcond]
      refine ⟨max (cur - 1) 0, rfl, ?_, ?_⟩ <;> omega

/-- C9: on any nonempty list of stop inputs and any input, the binary-search
while loop of `findStopLessThanOrEqualTo` terminates within
`stops.length + 1` iterations, and the function returns an index in the
range `[0, stops.length - 1]`. -/
theorem findStop_terminates_in_range (stops : List ℚ) (input : ℚ)
    (h : 1 ≤ stops.length) :
    ∃ i : ℤ,
      findStopLoop stops input (stops.length + 1) 0 ((stops.length : ℤ) - 1) 0 = some i ∧
      0 ≤ i ∧ i < (stops.length : ℤ) ∧ findStopLessThanOrEqualTo stops input = i := by
  obtain ⟨i, hloop, h0, hn⟩ := findStopLoop_total stops input (stops.length + 1) 0
    ((stops.length : ℤ) - 1) 0 (by omega) (by omega) (by omega) (by omega) (by omega)
  refine ⟨i, hloop, h0, hn, ?_⟩
  rw [findStopLessThanOrEqualTo, hloop]
  rfl

/-- Witness for C9 on the two-element stop list `[1, 2]` with input 5. -/
theorem findStop_terminates_in_range_witness :
    ∃ i : ℤ,
      findStopLoop [(1 : ℚ), 2] 5 ([(1 : ℚ), 2].length + 1) 0 (([(1 : ℚ), 2].length : ℤ) - 1) 0 =
        some i ∧
      0 ≤ i ∧ i < (([(1 : ℚ), 2].length : ℤ)) ∧ findStopLessThanOrEqualTo [(1 : ℚ), 2] 5 = i :=
  findStop_terminates_in_range [(1 : ℚ), 2] 5 (by decide)

theorem stopVal_lt_stopVal {stops : List ℚ} (hs : List.Pairwise (· < ·) stops)
    {i j : ℕ} (hij : i < j) (hj : j < stops.length) :
    stopVal stops i < stopVal stops j := by
  have hi : i < stops.length := lt_trans hij hj
  simp only [stopVal, List.getElem?_eq_getElem hi, List.getElem?_eq_getElem hj,
    Option.getD_some]
  exact List.pairwise_iff_getElem.mp hs i j hi hj hij

theorem stopVal_le_stopVal {stops : List ℚ} (hs : List.Pairwise (· < ·) stops)
    {i j : ℕ} (hij : i ≤ j) (hj : j < stops.length) :
    stopVal stops i ≤ stopVal stops j := by
  rcases eq_or_lt_of_le hij with h | h
  · rw [h]
  · exact le_of_lt (stopVal_lt_stopVal hs h hj)

theorem isGreatestLE_unique {stops : List ℚ} {input : ℚ} {i j : ℕ}
    (hi : IsGreatestLE stops input i) (hj : IsGreatestLE stops input j) : i = j :=
  le_antisymm (hj.2.2 i hi.1 hi.2.1) (hi.2.2 j hj.1 hj.2.1)

theorem findStopLoop_sorted (stops : List ℚ) (input : ℚ)
    (hs : List.Pairwise (· < ·) stops)
    (hlow : stopVal stops 0 < input)
    (hhigh : input < stopVal stops (stops.length - 1)) :
    ∀ fuel : ℕ, ∀ lowerIndex upperIndex currentIndex : ℤ,
      0 ≤ lowerIndex → upperIndex < (stops.length : ℤ) → lowerIndex ≤ upperIndex →
      (∀ j : ℕ, (j : ℤ) < lowerIndex → stopVal stops j < input) →
      (∀ j : ℕ, upperIndex < (j : ℤ) → j < stops.length → input < stopVal stops j) →
      (upperIndex - lowerIndex).toNat + 2 ≤ fuel →
      ∃ i : ℕ,
        findStopLoop stops input fuel lowerIndex upperIndex currentIndex = some (i : ℤ) ∧
        IsGreatestLE stops input i := by
  intro fuel
  induction fuel with
  | zero => intro lo hi cur _ _ _ _ _ hfuel; omega
  | succ fuel ih =>
    intro lo hi cur hlo hhi hcond hQ hP hfuel
    have hmid := fdiv_two_bounds hcond
    simp only [findStopLoop]
    rw [if_pos hcond]
    set mid := Int.fdiv (lo + hi) 2 with hmiddef
    have h0m : 0 ≤ mid := le_trans hlo hmid.1
    have hmn : mid < (stops.length : ℤ) := lt_of_le_of_lt hmid.2 hhi
    have hmidnat : ((mid.toNat : ℤ)) = mid := Int.toNat_of_nonneg h0m
    have hmidlen : mid.toNat < stops.length := by omega
    rw [sAt_eq_some h0m hmn]
    by_cases heq : input = stopVal stops mid.toNat
    · have hb : (jsEqO (some input) (some (stopVal stops mid.toNat)) ||
          (jsLtO (some (stopVal stops mid.toNat)) (some input) &&
            jsLtO (some input) (sAt stops (mid + 1)))) = true := by
        simp [jsEqO, heq]
      rw [if_pos hb]
      refine ⟨mid.toNat, by rw [hmidnat], hmidlen, le_of_eq heq.symm, ?_⟩
      intro j hjn hjle
      by_contra hj
      push_neg at hj
      have := stopVal_lt_stopVal hs hj hjn
      rw [← heq] at this
      exact absurd hjle (not_le.mpr this)
    · by_cases hlt : stopVal stops mid.toNat < input
      · -- input is to the right of the probe
        rcases Nat.lt_or_ge (mid.toNat + 1) stops.length with hnext | hnext
        · -- stops[mid+1] exists
          have hnext' : mid + 1 < (stops.length : ℤ) := by omega
          rw [sAt_eq_some (by omega) hnext']
          have htonat : (mid + 1).toNat = mid.toNat + 1 := by omega
          rw [htonat]
          by_cases hup : input < stopVal stops (mid.toNat + 1)
          · have hb : (jsEqO (some input) (some (stopVal stops mid.toNat)) ||
                (jsLtO (some (stopVal stops mid.toNat)) (some input) &&
                  jsLtO (some input) (some (stopVal stops (mid.toNat + 1))))) = true := by
              simp [jsEqO, jsLtO, hlt, hup]
            rw [if_pos hb]
            refine ⟨mid.toNat, by rw [hmidnat], hmidlen, le_of_lt hlt, ?_⟩
            intro j hjn hjle
            by_contra hj
            push_neg at hj
            have hle2 : stopVal stops (mid.toNat + 1) ≤ stopVal stops j :=
              stopVal_le_stopVal hs (by omega) hjn
            exact absurd hjle (not_le.mpr (lt_of_lt_of_le hup hle2))
          · -- stops[mid+1] <= input: move the lower bound up
            have hb : (jsEqO (some input) (some (stopVal stops mid.toNat)) ||
                (jsLtO (some (stopVal stops mid.toNat)) (some input) &&
                  jsLtO (some input) (some (stopVal stops (mid.toNat + 1))))) = false := by
              simp [jsEqO, jsLtO, heq, hup]
            rw [hb, if_neg (by simp)]
            have hb2 : jsLtO (some (stopVal stops mid.toNat)) (some input) = true := by
              simp [jsLtO, hlt]
            rw [if_pos hb2]
            have hmidhi : mid < hi := by
              rcases eq_or_lt_of_le hmid.2 with hmh | hmh
              · exfalso
                have := hP (mid.toNat + 1) (by omega) hnext
                push_neg at hup
                exact absurd this (not_lt.mpr hup)
              · exact hmh
            refine ih (mid + 1) hi mid (by omega) hhi (by omega) ?_ hP (by omega)
            intro j hj
            have hjm : j ≤ mid.toNat := by omega
            exact lt_of_le_of_lt (stopVal_le_stopVal hs hjm hmidlen) hlt
        · -- mid is the last index: contradicts input < stops[length-1]
          exfalso
          have hmlast : mid.toNat = stops.length - 1 := by omega
          rw [hmlast] at hlt
          exact absurd hhigh (not_lt.mpr (le_of_lt hlt))
      · -- input < stops[mid]: move the upper bound down
        have hgt : input < stopVal stops mid.toNat := by
          rcases lt_trichotomy input (stopVal stops mid.toNat) with h | h | h
          · exact h
          · exact absurd h heq
          · exact absurd h hlt
        have hb : (jsEqO (some input) (some (stopVal stops mid.toNat)) ||
            (jsLtO (some (stopVal stops mid.toNat)) (some input) &&
              jsLtO (some input) (sAt stops (mid + 1)))) = false := by
          simp [jsEqO, jsLtO, heq, hlt]
        rw [hb, if_neg (by simp)]
        have hb2 : jsLtO (some (stopVal stops mid.toNat)) (some input) = false := by
          simp [jsLtO, hlt]
        rw [hb2, if_neg (by simp)]
        have hb3 : jsLtO (some input) (some (stopVal stops mid.toNat)) = true := by
          simp [jsLtO, hgt]
        rw [if_pos hb3]
        rcases lt_or_le (mid - 1) lo with hexit | hrec
        · -- exit the loop: mid = lo, and the answer is lo - 1
          have hmideqlo : mid = lo := by omega
          have hlo1 : 1 ≤ lo := by
            by_contra hlo0
            push_neg at hlo0
            have hm0 : mid.toNat = 0 := by omega
            rw [hm0] at hgt
            exact absurd hlow (not_lt.mpr (le_of_lt hgt))
          obtain ⟨f, rfl⟩ : ∃ f, fuel = f + 1 := ⟨fuel - 1, by omega⟩
          simp only [findStopLoop]
          rw [if_neg (show ¬ lo ≤ mid - 1 by omega)]
          refine ⟨(lo - 1).toNat, ?_, by omega, ?_, ?_⟩
          · simp only [Option.some.injEq]
            omega
          · exact le_of_lt (hQ (lo - 1).toNat (by omega))
          · intro j hjn hjle
            by_contra hj
            push_neg at hj
            have hjge : mid.toNat ≤ j := by omega
            have := stopVal_le_stopVal hs hjge hjn
            exact absurd hjle (not_le.mpr (lt_of_lt_of_le hgt this))
        · -- keep searching in the lower half
          refine ih lo (mid - 1) mid hlo (by omega) hrec hQ ?_ (by omega)
          intro j hj1 hj2
          have hjge : mid.toNat ≤ j := by omega
          exact lt_of_lt_of_le hgt (stopVal_le_stopVal hs hjge hj2)

theorem findStop_sorted_correct (stops : List ℚ) (input : ℚ)
    (hs : List.Pairwise (· < ·) stops) (hn : 2 ≤ stops.length)
    (hlow : stopVal stops 0 < input)
    (hhigh : input < stopVal stops (stops.length - 1)) :
    ∃ i : ℕ, findStopLessThanOrEqualTo stops input = (i : ℤ) ∧
      IsGreatestLE stops input i := by
  obtain ⟨i, hloop, hgi⟩ := findStopLoop_sorted stops input hs hlow hhigh
    (stops.length + 1) 0 ((stops.length : ℤ) - 1) 0 (by omega) (by omega) (by omega)
    (fun j hj => absurd hj (by omega))
    (fun j hj1 hj2 => absurd hj2 (by omega))
    (by omega)
  refine ⟨i, ?_, hgi⟩
  rw [findStopLessThanOrEqualTo, hloop]
  rfl

theorem getElem?_eq_stopVal {stops : List ℚ} {j : ℕ} (h : j < stops.length) :
    stops[j]? = some (stopVal stops j) := by
  simp [stopVal, List.getElem?_eq_getElem h]

theorem callStop_eq {stopOutputs : List EvalThunk} {i : ℕ} {t : EvalThunk}
    (h : stopOutputs[i]? = some t) : callStop stopOutputs i = t () := by
  rw [callStop, List.getD_eq_getElem?_getD, h]
  rfl

/-- C3: boundary behavior of `evaluateCurve` for every stop set, every
interpolation kind and every result type: with exactly one stop, or an
input at or below the first stop input, the first stop's output thunk
result is returned unchanged; with an input at or above the last stop input
(and not at or below the first), the last stop's output thunk result is
returned unchanged — no interpolation is performed at or beyond the domain
edges. -/
theorem evaluateCurve_boundary (stopInputs : List ℚ) (stopOutputs : List EvalThunk)
    (interpolation : InterpolationType) (resultType : String) (input q0 ql : ℚ)
    (t0 tl : EvalThunk)
    (h0 : stopInputs[0]? = some q0)
    (hl : stopInputs[stopInputs.length - 1]? = some ql)
    (ht0 : stopOutputs[0]? = some t0)
    (htl : stopOutputs[stopInputs.length - 1]? = some tl) :
    (stopInputs.length = 1 →
      evaluateCurve (Value.num input) stopInputs stopOutputs interpolation resultType = t0 ()) ∧
    (input ≤ q0 →
      evaluateCurve (Value.num input) stopInputs stopOutputs interpolation resultType = t0 ()) ∧
    (¬ input ≤ q0 → ql ≤ input →
      evaluateCurve (Value.num input) stopInputs stopOutputs interpolation resultType = tl ()) := by
  have hase : as (Value.num input) "Number" (some "curve input") =
      Except.ok (Value.num input) := rfl
  refine ⟨?_, ?_, ?_⟩
  · intro h1
    simp only [evaluateCurve, hase]
    rw [if_pos h1]
    exact callStop_eq ht0
  · intro hle
    simp only [evaluateCurve, hase]
    by_cases h1 : stopInputs.length = 1
    · rw [if_pos h1]
      exact callStop_eq ht0
    · rw [if_neg h1, h0]
      have : jsLeB input (some q0) = true := by
        simp only [jsLeB]
        exact decide_eq_true hle
      rw [this, if_pos rfl]
      exact callStop_eq ht0
  · intro hnle hge
    simp only [evaluateCurve, hase]
    by_cases h1 : stopInputs.length = 1
    · rw [if_pos h1]
      have ht0' : stopOutputs[0]? = some tl := by
        rw [← h1] at htl
        simpa using htl
      exact callStop_eq ht0'
    · rw [if_neg h1, h0]
      have hfalse : jsLeB input (some q0) = false := by
        simp only [jsLeB]
        exact decide_eq_false hnle
      rw [hfalse, if_neg (by simp), hl]
      have htrue : jsGeB input (some ql) = true := by
        simp only [jsGeB]
        exact decide_eq_true hge
      rw [htrue, if_pos rfl]
      exact callStop_eq htl

/-- Witness for C3 on the stop set `[0, 10]` with outputs 100 and 200, at
the below-range input -5 and the above-range input 99. -/
theorem evaluateCurve_boundary_witness :
    evaluateCurve (Value.num (-5)) [0, 10]
      [fun _ => Except.ok (Value.num 100), fun _ => Except.ok (Value.num 200)]
      (InterpolationType.mk "linear" 1) "number" = Except.ok (Value.num 100) ∧
    evaluateCurve (Value.num 99) [0, 10]
      [fun _ => Except.ok (Value.num 100), fun _ => Except.ok (Value.num 200)]
      (InterpolationType.mk "linear" 1) "number" = Except.ok (Value.num 200) := by
  constructor
  · exact (evaluateCurve_boundary [0, 10]
      [fun _ => Except.ok (Value.num 100), fun _ => Except.ok (Value.num 200)]
      (InterpolationType.mk "linear" 1) "number" (-5) 0 10
      (fun _ => Except.ok (Value.num 100)) (fun _ => Except.ok (Value.num 200))
      rfl rfl rfl rfl).2.1 (by norm_num)
  · exact (evaluateCurve_boundary [0, 10]
      [fun _ => Except.ok (Value.num 100), fun _ => Except.ok (Value.num 200)]
      (InterpolationType.mk "linear" 1) "number" 99 0 10
      (fun _ => Except.ok (Value.num 100)) (fun _ => Except.ok (Value.num 200))
      rfl rfl rfl rfl).2.2 (by norm_num) (by norm_num)

/-- C2: for a strictly increasing stop-input list of length at least 2, the
Step interpolation kind, and a numeric input strictly between the first and
last stop inputs, `evaluateCurve` returns exactly the result of the output
thunk at the greatest index whose stop input is less than or equal to the
input (located by the binary search), and never a blended value. -/
theorem evaluateCurve_step_exact (stopInputs : List ℚ) (stopOutputs : List EvalThunk)
    (interpolation : InterpolationType) (resultType : String) (input : ℚ)
    (i : ℕ) (ti : EvalThunk)
    (hs : List.Pairwise (· < ·) stopInputs)
    (hn : 2 ≤ stopInputs.length)
    (hlow : stopVal stopInputs 0 < input)
    (hhigh : input < stopVal stopInputs (stopInputs.length - 1))
    (hstep : interpolation.name = "step")
    (hgi : IsGreatestLE stopInputs input i)
    (hti : stopOutputs[i]? = some ti) :
    evaluateCurve (Value.num input) stopInputs stopOutputs interpolation resultType =
      ti () := by
  have hase : as (Value.num input) "Number" (some "curve input") =
      Except.ok (Value.num input) := rfl
  obtain ⟨i0, hfind, hgi0⟩ := findStop_sorted_correct stopInputs input hs hn hlow hhigh
  have hii : i0 = i := isGreatestLE_unique hgi0 hgi
  subst hii
  simp only [evaluateCurve, hase]
  rw [if_neg (show ¬ stopInputs.length = 1 by omega)]
  rw [getElem?_eq_stopVal (show 0 < stopInputs.length by omega)]
  have hle0 : jsLeB input (some (stopVal stopInputs 0)) = false := by
    simp only [jsLeB]
    exact decide_eq_false (not_le.mpr hlow)
  rw [hle0, if_neg (by simp)]
  rw [getElem?_eq_stopVal (show stopInputs.length - 1 < stopInputs.length by omega)]
  have hgel : jsGeB input (some (stopVal stopInputs (stopInputs.length - 1))) = false := by
    simp only [jsGeB]
    exact decide_eq_false (not_le.mpr hhigh)
  rw [hgel, if_neg (by simp)]
  rw [hfind, Int.toNat_ofNat, if_pos hstep]
  exact callStop_eq hti

/-- Witness for C2 on the strictly increasing stop set `[0, 10, 20]` at
input 15, where the greatest index with stop input at most 15 is 1. -/
theorem evaluateCurve_step_exact_witness :
    evaluateCurve (Value.num 15) [0, 10, 20]
      [fun _ => Except.ok (Value.num 100), fun _ => Except.ok (Value.num 200),
        fun _ => Except.ok (Value.num 300)]
      (InterpolationType.mk "step" 1) "number" = Except.ok (Value.num 200) := by
  exact evaluateCurve_step_exact [0, 10, 20]
    [fun _ => Except.ok (Value.num 100), fun _ => Except.ok (Value.num 200),
      fun _ => Except.ok (Value.num 300)]
    (InterpolationType.mk "step" 1) "number" 15 1 (fun _ => Except.ok (Value.num 200))
    (by decide) (by decide) (by decide) (by decide) rfl
    ⟨by decide, by decide, by decide⟩ rfl

theorem interpolateArray_eq_zipWith (t : ℚ) :
    ∀ (a b : List Json), a.length = b.length →
      interpolateArray a b t = List.zipWith (fun x y => jsonLerp x y t) a b := by
  intro a
  induction a with
  | nil => intro b _; rfl
  | cons x xs ih =>
    intro b h
    cases b with
    | nil => simp at h
    | cons y ys =>
      simp only [interpolateArray, List.zipWith]
      rw [ih ys (by simpa using h)]


theorem evaluateCurve_array_case (stopInputs : List ℚ) (stopOutputs : List EvalThunk)
    (interpolation : InterpolationType) (input : ℚ) (i : ℕ)
    (tL tU : EvalThunk) (typeL typeU : String) (itemsL itemsU : List Json)
    (hs : List.Pairwise (· < ·) stopInputs)
    (hn : 2 ≤ stopInputs.length)
    (hlow : stopVal stopInputs 0 < input)
    (hhigh : input < stopVal stopInputs (stopInputs.length - 1))
    (hstep : ¬ interpolation.name = "step")
    (hgi : IsGreatestLE stopInputs input i)
    (htL : stopOutputs[i]? = some tL) (htU : stopOutputs[i + 1]? = some tU)
    (hL : tL () = Except.ok (Value.arrayV typeL itemsL))
    (hU : tU () = Except.ok (Value.arrayV typeU itemsU)) :
    evaluateCurve (Value.num input) stopInputs stopOutputs interpolation "array" =
      Except.ok (Value.arrayV "Array"
        (interpolateArray itemsL itemsU
          (interpolationFactor input
            (if interpolation.name = "exponential" then interpolation.base else 1)
            (stopVal stopInputs i) (stopVal stopInputs (i + 1))))) := by
  have hase : as (Value.num input) "Number" (some "curve input") =
      Except.ok (Value.num input) := rfl
  obtain ⟨i0, hfind, hgi0⟩ := findStop_sorted_correct stopInputs input hs hn hlow hhigh
  have hii : i0 = i := isGreatestLE_unique hgi0 hgi
  subst hii
  simp only [evaluateCurve, hase]
  rw [if_neg (show ¬ stopInputs.length = 1 by omega)]
  rw [getElem?_eq_stopVal (show 0 < stopInputs.length by omega)]
  have hle0 : jsLeB input (some (stopVal stopInputs 0)) = false := by
    simp only [jsLeB]
    exact decide_eq_false (not_le.mpr hlow)
  rw [hle0, if_neg (by simp)]
  rw [getElem?_eq_stopVal (show stopInputs.length - 1 < stopInputs.length by omega)]
  have hgel : jsGeB input (some (stopVal stopInputs (stopInputs.length - 1))) = false := by
    simp only [jsGeB]
    exact decide_eq_false (not_le.mpr hhigh)
  rw [hgel, if_neg (by simp)]
  rw [hfind, Int.toNat_ofNat, if_neg hstep]
  rw [callStop_eq htL, hL, callStop_eq htU, hU]
  simp only []
  rw [if_neg (by decide), if_pos trivial]
  simp only [itemsOf, typeField]
  rfl

/-- C4 (amended): for a non-Step curve evaluation with result type `array`
whose numeric input lies strictly between two bracketing stops, the result
is an Array value whose items are the component-wise linear blend of the two
bracketing outputs' item sequences at the interpolation progress,
re-wrapped with the lower output's outer type tag `Array` as the
element-type descriptor — i.e. with the generic array element type, not the
lower output's own element type. -/
theorem evaluateCurve_array_blend (stopInputs : List ℚ) (stopOutputs : List EvalThunk)
    (interpolation : InterpolationType) (input : ℚ) (i : ℕ)
    (tL tU : EvalThunk) (typeL typeU : String) (itemsL itemsU : List Json)
    (hs : List.Pairwise (· < ·) stopInputs)
    (hn : 2 ≤ stopInputs.length)
    (hlow : stopVal stopInputs 0 < input)
    (hhigh : input < stopVal stopInputs (stopInputs.length - 1))
    (hstep : ¬ interpolation.name = "step")
    (hgi : IsGreatestLE stopInputs input i)
    (htL : stopOutputs[i]? = some tL) (htU : stopOutputs[i + 1]? = some tU)
    (hL : tL () = Except.ok (Value.arrayV typeL itemsL))
    (hU : tU () = Except.ok (Value.arrayV typeU itemsU))
    (hlen : itemsL.length = itemsU.length) :
    evaluateCurve (Value.num input) stopInputs stopOutputs interpolation "array" =
      Except.ok (Value.arrayV "Array"
        (List.zipWith
          (fun a b => jsonLerp a b
            (interpolationFactor input
              (if interpolation.name = "exponential" then interpolation.base else 1)
              (stopVal stopInputs i) (stopVal stopInputs (i + 1))))
          itemsL itemsU)) := by
  rw [evaluateCurve_array_case stopInputs stopOutputs interpolation input i tL tU typeL typeU
    itemsL itemsU hs hn hlow hhigh hstep hgi htL htU hL hU]
  rw [interpolateArray_eq_zipWith _ _ _ hlen]

/-- C4 counterexample: at a concrete non-Step curve evaluation whose two
bracketing outputs are arrays of element type `Array<number>`, the result
carries the generic element-type descriptor `Array` — it does not preserve
the lower bracketing output's element type, contrary to the claim. -/
theorem evaluateCurve_array_counterexample :
    evaluateCurve (Value.num 5) [0, 10]
      [fun _ => Except.ok (Value.arrayV "Array<number>" [Json.num 0]),
        fun _ => Except.ok (Value.arrayV "Array<number>" [Json.num 10])]
      (InterpolationType.mk "linear" 1) "array" =
      Except.ok (Value.arrayV "Array" [Json.num 5]) ∧
    Value.arrayV "Array" [Json.num 5] ≠ Value.arrayV "Array<number>" [Json.num 5] := by
  constructor
  · rw [evaluateCurve_array_case [0, 10]
      [fun _ => Except.ok (Value.arrayV "Array<number>" [Json.num 0]),
        fun _ => Except.ok (Value.arrayV "Array<number>" [Json.num 10])]
      (InterpolationType.mk "linear" 1) 5 0
      (fun _ => Except.ok (Value.arrayV "Array<number>" [Json.num 0]))
      (fun _ => Except.ok (Value.arrayV "Array<number>" [Json.num 10]))
      "Array<number>" "Array<number>" [Json.num 0] [Json.num 10]
      (by decide) (by decide) (by decide) (by decide) (by decide)
      ⟨by decide, by decide, by decide⟩ rfl rfl rfl rfl]
    simp only [interpolateArray, jsonLerp, stopVal, interpolationFactor]
    norm_num [lerpQ]
  · intro h
    injection h with h1 _
    exact absurd h1 (by decide)

/-- Witness for the amended C4 on the stop set `[0, 10]` at input 5 with
two-item numeric arrays as outputs. -/
theorem evaluateCurve_array_blend_witness :
    evaluateCurve (Value.num 5) [0, 10]
      [fun _ => Except.ok (Value.arrayV "Array<number>" [Json.num 0, Json.num 100]),
        fun _ => Except.ok (Value.arrayV "Array<number>" [Json.num 10, Json.num 200])]
      (InterpolationType.mk "linear" 1) "array" =
      Except.ok (Value.arrayV "Array" [Json.num 5, Json.num 150]) := by
  rw [evaluateCurve_array_blend [0, 10]
    [fun _ => Except.ok (Value.arrayV "Array<number>" [Json.num 0, Json.num 100]),
      fun _ => Except.ok (Value.arrayV "Array<number>" [Json.num 10, Json.num 200])]
    (InterpolationType.mk "linear" 1) 5 0
    (fun _ => Except.ok (Value.arrayV "Array<number>" [Json.num 0, Json.num 100]))
    (fun _ => Except.ok (Value.arrayV "Array<number>" [Json.num 10, Json.num 200]))
    "Array<number>" "Array<number>" [Json.num 0, Json.num 100] [Json.num 10, Json.num 200]
    (by decide) (by decide) (by decide) (by decide) (by decide)
    ⟨by decide, by decide, by decide⟩ rfl rfl rfl rfl rfl]
  simp only [List.zipWith, jsonLerp, stopVal, interpolationFactor]
  norm_num [lerpQ]
